import Mathlib

set_option maxHeartbeats 1000000

/- Shallow embedding of the ShoppyGlobe backend's order / cart / stock workflow.

   Sources embedded:
   - src/models/User.js (bundle): productSchema methods isInStock / reserveStock /
     releaseStock; cartSchema pre-save totals hook and the cart instance methods
     addItem / updateItemQuantity / removeItem / clearCart / validateItems.
   - src/models/Order.js (bundled in src/config/database.js): the three pre-save
     hooks (order number generation, totals recomputation, status history), the
     instance methods updateStatus / addTracking / cancelOrder / canBeCancelled /
     canBeReturned.
   - src/controllers/orderController.js: createOrder, updateOrderStatus,
     cancelOrder, calculateShippingCost, calculateTaxAmount.

   Modelling conventions: the embedding is sequential (one request at a time);
   Mongo documents become Lean structures; `save()` becomes application of the
   pre-save hooks; thrown exceptions become `Except` errors or an error
   component of the result; money and stock are `Int` (the JS values are
   numbers used integrally everywhere relevant; the one fractional computation,
   `Math.round(subtotal * 0.18)`, is modelled exactly over `Rat`); timestamps
   (`new Date()` / `Date.now()`) are an `Int` parameter `now` in milliseconds.
   Textual fields that no modelled operation ever inspects (titles, product
   snapshots, addresses, notes-free strings) are omitted from the records;
   strings that the logic does inspect (order numbers, which are filtered by a
   month regex, sorted lexicographically and re-parsed) are kept as `String`.
   MongoDB's descending sort on `orderNumber` is byte-lexicographic, embedded
   by `lexLtChars` below; `^SG<yy><mm>` regex matching is `listHeadMatches`. -/

/-! String / list helpers used by the order number generator. -/

/-- Byte-lexicographic strict comparison on character lists: the order MongoDB
uses when sorting the ASCII `orderNumber` strings. -/
def lexLtChars : List Char → List Char → Bool
  | [], [] => false
  | [], _ :: _ => true
  | _ :: _, [] => false
  | a :: as, b :: bs => if a < b then true else if b < a then false else lexLtChars as bs

/-- Test that `tag` is an initial segment of `s`: the `^SG<yy><mm>` regex test. -/
def listHeadMatches : List Char → List Char → Bool
  | [], _ => true
  | _ :: _, [] => false
  | a :: as, b :: bs => a == b && listHeadMatches as bs

/-- JS `String.prototype.padStart(n, c)`. -/
def leftPad (c : Char) (n : Nat) (s : String) : String :=
  ⟨List.replicate (n - s.data.length) c ++ s.data⟩

/-- JS `String.prototype.substr(-n)`: the last `n` characters. -/
def strTakeRight (s : String) (n : Nat) : String :=
  ⟨s.data.drop (s.data.length - n)⟩

/-- Decimal value of a digit string: `parseInt` on the all-digit inputs it
receives here. -/
def natOfDigits (l : List Char) : Nat :=
  l.foldl (fun acc c => 10 * acc + (c.toNat - 48)) 0

def strLt (a b : String) : Bool := lexLtChars a.data b.data

/-- Greatest element of a list of strings in byte-lexicographic order: the
document returned by `.find(regex).sort(orderNumber: -1).limit(1)`. -/
def lexMaxStr (l : List String) : Option String :=
  l.foldl
    (fun acc s =>
      match acc with
      | none => some s
      | some m => some (if strLt m s then s else m))
    none

def strMatchesTag (tag s : String) : Bool := listHeadMatches tag.data s.data

/-! Product stock ledger: productSchema of src/models/Product.js. -/

structure Product where
  pid : Nat
  price : Int
  stock : Int
  isActive : Bool
deriving DecidableEq

/-- `productSchema.methods.isInStock`. -/
def Product.isInStock (p : Product) (quantity : Int) : Bool :=
  decide (p.stock ≥ quantity)

inductive StockError
  | insufficientStock
deriving DecidableEq

/-- `productSchema.methods.reserveStock`: throws when not in stock, otherwise
decrements `stock` and saves (the product pre-save hook only refreshes
`lastStockUpdate`, a timestamp not modelled). -/
def Product.reserveStock (p : Product) (quantity : Int) : Except StockError Product :=
  if !p.isInStock quantity then Except.error StockError.insufficientStock
  else Except.ok { p with stock := p.stock - quantity }

/-- `productSchema.methods.releaseStock`: unconditional increment. -/
def Product.releaseStock (p : Product) (quantity : Int) : Product :=
  { p with stock := p.stock + quantity }

/-- `Product.findById` over the products collection. -/
def findProduct (ps : List Product) (pid : Nat) : Option Product :=
  ps.find? (fun p => p.pid == pid)

/-- Persisting a fetched-and-mutated product document back by `_id`. -/
def updateProduct (ps : List Product) (p' : Product) : List Product :=
  ps.map (fun p => if p.pid == p'.pid then p' else p)

def stockOf (ps : List Product) (pid : Nat) : Option Int :=
  (findProduct ps pid).map Product.stock

/-! Cart aggregate: cartSchema of src/models/Cart.js. -/

structure CartItem where
  product : Nat
  quantity : Int
  price : Int
  total : Int
deriving DecidableEq

structure Cart where
  items : List CartItem
  totalItems : Int
  totalAmount : Int
deriving DecidableEq

def cartItemsQty (items : List CartItem) : Int :=
  items.foldl (fun t it => t + it.quantity) 0

def cartItemsAmount (items : List CartItem) : Int :=
  items.foldl (fun t it => t + it.total) 0

/-- The cartSchema pre-save hook: recomputes each line total and the cached
cart totals (zeroing them for an empty cart). `save()` on a cart is exactly
this hook. -/
def saveCart (c : Cart) : Cart :=
  if !c.items.isEmpty then
    let items := c.items.map (fun it => { it with total := it.price * it.quantity })
    { c with items := items, totalItems := cartItemsQty items, totalAmount := cartItemsAmount items }
  else
    { c with totalItems := 0, totalAmount := 0 }

/-- Helper for `addItem`: JS mutates the item found by `findIndex`, i.e. the
first line for the product. -/
def bumpFirstQty (pid : Nat) (q : Int) : List CartItem → List CartItem
  | [] => []
  | it :: rest =>
    if it.product == pid then { it with quantity := it.quantity + q } :: rest
    else it :: bumpFirstQty pid q rest

/-- `cartSchema.methods.addItem`. -/
def Cart.addItem (c : Cart) (productId : Nat) (quantity price : Int) : Cart :=
  if c.items.any (fun it => it.product == productId) then
    saveCart { c with items := bumpFirstQty productId quantity c.items }
  else
    saveCart { c with items := c.items ++ [⟨productId, quantity, price, price * quantity⟩] }

/-- Helper for `updateItemQuantity`: JS mutates the first line found by `find`. -/
def setFirstQty (pid : Nat) (q : Int) : List CartItem → List CartItem
  | [] => []
  | it :: rest =>
    if it.product == pid then { it with quantity := q } :: rest
    else it :: setFirstQty pid q rest

inductive CartError
  | itemNotFound
deriving DecidableEq

/-- `cartSchema.methods.updateItemQuantity`. -/
def Cart.updateItemQuantity (c : Cart) (productId : Nat) (quantity : Int) :
    Except CartError Cart :=
  if c.items.any (fun it => it.product == productId) then
    if quantity ≤ 0 then
      Except.ok (saveCart { c with items := c.items.filter (fun it => !(it.product == productId)) })
    else
      Except.ok (saveCart { c with items := setFirstQty productId quantity c.items })
  else
    Except.error CartError.itemNotFound

/-- `cartSchema.methods.removeItem`. -/
def Cart.removeItem (c : Cart) (productId : Nat) : Cart :=
  saveCart { c with items := c.items.filter (fun it => !(it.product == productId)) }

/-- `cartSchema.methods.clearCart`. -/
def Cart.clearCart (c : Cart) : Cart :=
  saveCart { c with items := [] }

inductive CartOp
  | add (productId : Nat) (quantity price : Int)
  | update (productId : Nat) (quantity : Int)
  | remove (productId : Nat)
  | clear

def applyCartOp (op : CartOp) (c : Cart) : Except CartError Cart :=
  match op with
  | .add pid q price => Except.ok (c.addItem pid q price)
  | .update pid q => c.updateItemQuantity pid q
  | .remove pid => Except.ok (c.removeItem pid)
  | .clear => Except.ok c.clearCart

inductive ValidationAction
  | remove
  | updateQuantity
  | updatePrice
deriving DecidableEq

structure ValidationResult where
  productId : Nat
  action : ValidationAction
  availableStock : Option Int
  oldPrice : Option Int
  newPrice : Option Int
deriving DecidableEq

/-- `cartSchema.methods.validateItems`: pure read over the live products,
flagging missing / inactive / understocked / price-drifted lines. -/
def validateItems (ps : List Product) : List CartItem → List ValidationResult
  | [] => []
  | it :: rest =>
    match findProduct ps it.product with
    | none => ⟨it.product, ValidationAction.remove, none, none, none⟩ :: validateItems ps rest
    | some p =>
      if !p.isActive then
        ⟨it.product, ValidationAction.remove, none, none, none⟩ :: validateItems ps rest
      else if p.stock < it.quantity then
        ⟨it.product, ValidationAction.updateQuantity, some p.stock, none, none⟩ :: validateItems ps rest
      else if p.price != it.price then
        ⟨it.product, ValidationAction.updatePrice, none, some it.price, some p.price⟩ :: validateItems ps rest
      else
        validateItems ps rest

/-! Order aggregate: orderSchema of src/models/Order.js. -/

inductive OrderStatus
  | pending
  | confirmed
  | processing
  | shipped
  | delivered
  | cancelled
  | refunded
deriving DecidableEq

inductive PaymentMethod
  | stripe
  | paypal
  | razorpay
  | cod
deriving DecidableEq

inductive PaymentStatus
  | pending
  | paid
  | failed
  | refunded
  | partiallyRefunded
deriving DecidableEq

inductive RefundStatus
  | noRefund
  | pending
  | completed
  | failed
deriving DecidableEq

structure OrderItem where
  product : Nat
  price : Int
  quantity : Int
  total : Int
deriving DecidableEq

structure StatusHistoryEntry where
  status : OrderStatus
  timestamp : Int
  notes : Option String
  updatedBy : Option Nat
deriving DecidableEq

structure Tracking where
  provider : Option String
  trackingNumber : Option String
  trackingUrl : Option String
  shippedAt : Option Int
  deliveredAt : Option Int
deriving DecidableEq

def emptyTracking : Tracking := ⟨none, none, none, none, none⟩

/-- The body passed to `order.addTracking(...)` by the controller: the spread
`...trackingData` overrides exactly these three keys. -/
structure TrackingData where
  provider : Option String
  trackingNumber : Option String
  trackingUrl : Option String
deriving DecidableEq

structure Cancellation where
  reason : Option String
  cancelledAt : Int
  cancelledBy : Option Nat
  refundStatus : RefundStatus
deriving DecidableEq

structure Order where
  orderNumber : String
  user : Nat
  items : List OrderItem
  status : OrderStatus
  subtotal : Int
  taxAmount : Int
  shippingCost : Int
  discountAmount : Int
  totalAmount : Int
  paymentMethod : PaymentMethod
  paymentStatus : PaymentStatus
  tracking : Tracking
  statusHistory : List StatusHistoryEntry
  cancellation : Option Cancellation
  confirmedAt : Option Int
  processedAt : Option Int
  shippedAt : Option Int
  deliveredAt : Option Int
  cancelledAt : Option Int
deriving DecidableEq

structure OrderDate where
  year : Nat
  month : Nat
deriving DecidableEq

def sgTag : String := "SG"

/-- `new Date().getFullYear().toString().substr(-2)`. -/
def yearCode (year : Nat) : String := strTakeRight (Nat.repr year) 2

/-- `(new Date().getMonth() + 1).toString().padStart(2, '0')`; `month` is
already 1-based here. -/
def monthCode (month : Nat) : String := leftPad '0' 2 (Nat.repr month)

def monthTag (d : OrderDate) : String := sgTag ++ yearCode d.year ++ monthCode d.month

/-- First orderSchema pre-save hook (for a new order without a number): find
the lexicographically greatest existing number matching `^SG<yy><mm>`, parse
its last four characters, add one, left-pad to four digits. -/
def generateOrderNumber (d : OrderDate) (existing : List String) : String :=
  let tag := monthTag d
  let matching := existing.filter (fun s => strMatchesTag tag s)
  let seq : Nat :=
    match lexMaxStr matching with
    | none => 1
    | some lastNumber => natOfDigits (strTakeRight lastNumber 4).data + 1
  tag ++ leftPad '0' 4 (Nat.repr seq)

def orderSubtotal (items : List OrderItem) : Int :=
  items.foldl (fun t it => t + it.total) 0

/-- Second orderSchema pre-save hook: recompute `subtotal` from the items and
`totalAmount` from the components. Runs on every save. -/
def orderPreSaveTotals (o : Order) : Order :=
  let subtotal := orderSubtotal o.items
  { o with
    subtotal := subtotal
    totalAmount := subtotal + o.taxAmount + o.shippingCost - o.discountAmount }

/-- The milestone-timestamp switch shared by the history pre-save hook and
`updateStatus`. -/
def milestoneUpdate (now : Int) (s : OrderStatus) (o : Order) : Order :=
  match s with
  | OrderStatus.confirmed => { o with confirmedAt := some now }
  | OrderStatus.processing => { o with processedAt := some now }
  | OrderStatus.shipped => { o with shippedAt := some now }
  | OrderStatus.delivered => { o with deliveredAt := some now }
  | OrderStatus.cancelled => { o with cancelledAt := some now }
  | _ => o

/-- Third orderSchema pre-save hook: on a status change of a persisted order,
append a bare history entry and stamp the milestone field. -/
def orderPreSaveStatusHistory (now : Int) (statusModified isNew : Bool) (o : Order) : Order :=
  if statusModified && !isNew then
    milestoneUpdate now o.status
      { o with statusHistory := o.statusHistory ++ [⟨o.status, now, none, none⟩] }
  else o

/-- `save()` of a freshly constructed order (`Order.create`): hook one assigns
the number, hook two recomputes totals, hook three is skipped (`isNew`). -/
def saveOrderNew (d : OrderDate) (existingNumbers : List String) (o : Order) : Order :=
  let o1 :=
    if o.orderNumber.isEmpty then
      { o with orderNumber := generateOrderNumber d existingNumbers }
    else o
  orderPreSaveTotals o1

/-- `save()` of a persisted order; `statusModified` is mongoose's
`isModified('status')`, true exactly when the status field was assigned a
different value since the load. -/
def saveOrderExisting (now : Int) (statusModified : Bool) (o : Order) : Order :=
  orderPreSaveStatusHistory now statusModified false (orderPreSaveTotals o)

/-- `orderSchema.methods.updateStatus`. -/
def Order.updateStatus (o : Order) (newStatus : OrderStatus) (notes : Option String)
    (updatedBy : Option Nat) (now : Int) : Order :=
  let previousStatus := o.status
  let o1 :=
    { o with
      status := newStatus
      statusHistory := o.statusHistory ++ [⟨newStatus, now, notes, updatedBy⟩] }
  let o2 := milestoneUpdate now newStatus o1
  saveOrderExisting now (decide (newStatus ≠ previousStatus)) o2

/-- `orderSchema.methods.addTracking`: spread-merge the tracking data, stamp
`tracking.shippedAt`, promote `processing` to `shipped`, save. -/
def Order.addTracking (o : Order) (td : TrackingData) (now : Int) : Order :=
  let o1 :=
    { o with
      tracking :=
        { provider := td.provider
          trackingNumber := td.trackingNumber
          trackingUrl := td.trackingUrl
          shippedAt := some now
          deliveredAt := o.tracking.deliveredAt } }
  let statusModified := decide (o1.status = OrderStatus.processing)
  let o2 :=
    if o1.status = OrderStatus.processing then { o1 with status := OrderStatus.shipped } else o1
  saveOrderExisting now statusModified o2

/-- `orderSchema.methods.cancelOrder`: set status, record the cancellation
block, save. It does not touch product stock. -/
def Order.cancelOrder (o : Order) (reason : Option String) (cancelledBy : Option Nat)
    (now : Int) : Order :=
  let o1 :=
    { o with
      status := OrderStatus.cancelled
      cancellation := some
        ⟨reason, now, cancelledBy,
          if o.paymentStatus = PaymentStatus.paid then RefundStatus.pending
          else RefundStatus.noRefund⟩ }
  saveOrderExisting now (decide (OrderStatus.cancelled ≠ o.status)) o1

/-- `orderSchema.methods.canBeCancelled`. -/
def Order.canBeCancelled (o : Order) : Bool :=
  [OrderStatus.pending, OrderStatus.confirmed, OrderStatus.processing].contains o.status

def returnWindowMs : Int := 30 * 24 * 60 * 60 * 1000

/-- `orderSchema.methods.canBeReturned`; `none` models the TypeError raised by
`this.deliveredAt.getTime()` when `deliveredAt` was never set. -/
def Order.canBeReturned (o : Order) (now : Int) : Option Bool :=
  if o.status ≠ OrderStatus.delivered then some false
  else
    match o.deliveredAt with
    | none => none
    | some t => some (decide (now - t < returnWindowMs))

/-! Controller layer: src/controllers/orderController.js. -/

/-- `calculateShippingCost` helper of the controller. -/
def calculateShippingCost (cart : Cart) : Int :=
  let freeShippingThreshold : Int := 999
  if cart.totalAmount ≥ freeShippingThreshold then 0
  else
    let baseShipping : Int := 99
    let weightBasedShipping : Int := cart.items.foldl (fun t it => t + it.quantity * 10) 0
    min (baseShipping + weightBasedShipping) 299

/-- `0.18` of the source, exactly. -/
def taxRate : Rat := 18 / 100

/-- `calculateTaxAmount` helper: `Math.round(subtotal * 0.18)`. -/
def calculateTaxAmount (subtotal : Int) : Int :=
  round ((subtotal : Rat) * taxRate)

inductive CreateOrderError
  | cartEmpty
  | cartValidationFailed (results : List ValidationResult)
  | productNotFound (productId : Nat)
  | productInactive (productId : Nat)
  | insufficientStock (productId : Nat) (available : Int)
  | orderCreationFailed
deriving DecidableEq

/-- The order-items loop of `createOrder`: re-check each line against the live
product and snapshot it; any failed check aborts with the matching error. -/
def buildOrderItems (ps : List Product) : List CartItem → Except CreateOrderError (List OrderItem)
  | [] => Except.ok []
  | it :: rest =>
    match findProduct ps it.product with
    | none => Except.error (CreateOrderError.productNotFound it.product)
    | some p =>
      if !p.isActive then Except.error (CreateOrderError.productInactive p.pid)
      else if p.stock < it.quantity then
        Except.error (CreateOrderError.insufficientStock p.pid p.stock)
      else
        (buildOrderItems ps rest).map (fun ois => (⟨p.pid, it.price, it.quantity, it.total⟩ : OrderItem) :: ois)

/-- The reservation loop of `createOrder`: for each order item fetch the
product (a missing one is silently skipped) and `reserveStock`; a thrown
insufficient-stock error aborts the loop, keeping the updates already saved. -/
def reserveLoop : List OrderItem → List Product → List Product × Option StockError
  | [], ps => (ps, none)
  | it :: rest, ps =>
    match findProduct ps it.product with
    | none => reserveLoop rest ps
    | some p =>
      match p.reserveStock it.quantity with
      | Except.error e => (ps, some e)
      | Except.ok p' => reserveLoop rest (updateProduct ps p')

/-- Persistent state touched by the order workflow: the products collection,
the acting user's cart (`Cart.findByUser`), and the orders collection. -/
structure Store where
  products : List Product
  cart : Option Cart
  orders : List Order
deriving DecidableEq

/-- `createOrder` controller: empty-cart check, `validateItems` check, the
build loop, amount computation, `Order.create`, the reservation loop (whose
failure is caught and surfaced as a 500 with the created order and the partial
stock updates already persisted), and cart clearing. The best-effort steps
(user statistics, confirmation email) touch no modelled state. -/
def createOrder (d : OrderDate) (userId : Nat) (pm : PaymentMethod) (st : Store) :
    Except CreateOrderError Order × Store :=
  match st.cart with
  | none => (Except.error CreateOrderError.cartEmpty, st)
  | some cart =>
    if cart.items.isEmpty then (Except.error CreateOrderError.cartEmpty, st)
    else
      let validationResults := validateItems st.products cart.items
      if !validationResults.isEmpty then
        (Except.error (CreateOrderError.cartValidationFailed validationResults), st)
      else
        match buildOrderItems st.products cart.items with
        | Except.error e => (Except.error e, st)
        | Except.ok orderItems =>
          let subtotal := cart.totalAmount
          let shippingCost := calculateShippingCost cart
          let taxAmount := calculateTaxAmount subtotal
          let totalAmount := subtotal + shippingCost + taxAmount
          let order := saveOrderNew d (st.orders.map Order.orderNumber)
            { orderNumber := ⟨[]⟩
              user := userId
              items := orderItems
              status := if pm = PaymentMethod.cod then OrderStatus.confirmed else OrderStatus.pending
              subtotal := subtotal
              taxAmount := taxAmount
              shippingCost := shippingCost
              discountAmount := 0
              totalAmount := totalAmount
              paymentMethod := pm
              paymentStatus := PaymentStatus.pending
              tracking := emptyTracking
              statusHistory := []
              cancellation := none
              confirmedAt := none
              processedAt := none
              shippedAt := none
              deliveredAt := none
              cancelledAt := none }
          let orders := st.orders ++ [order]
          match reserveLoop orderItems st.products with
          | (ps, some _) =>
            (Except.error CreateOrderError.orderCreationFailed,
              { st with products := ps, orders := orders })
          | (ps, none) =>
            let cart := cart.clearCart
            (Except.ok order, { st with products := ps, orders := orders, cart := some cart })

inductive CancelError
  | orderNotFound
  | cannotCancel
deriving DecidableEq

/-- `cancelOrder` controller (PUT /api/orders/:id/cancel) applied to a found
order: reject unless `canBeCancelled`, otherwise run the model's
`cancelOrder`. No stock is touched on either path. -/
def cancelOrderOp (o : Order) (ps : List Product) (reason : Option String)
    (userId : Option Nat) (now : Int) : Except CancelError Unit × Order × List Product :=
  if !o.canBeCancelled then (Except.error CancelError.cannotCancel, o, ps)
  else (Except.ok (), o.cancelOrder reason userId now, ps)

/-- The stock-release loop of the `cancelled` branch of `updateOrderStatus`. -/
def releaseLoop : List OrderItem → List Product → List Product
  | [], ps => ps
  | it :: rest, ps =>
    match findProduct ps it.product with
    | none => releaseLoop rest ps
    | some p => releaseLoop rest (updateProduct ps (p.releaseStock it.quantity))

/-- `updateOrderStatus` controller applied to a found order: run the model's
`updateStatus`, then the status switch (only the `cancelled` branch touches
modelled state, releasing every line's stock; emails and purchase analytics are
outside the model). -/
def updateOrderStatusOp (o : Order) (ps : List Product) (newStatus : OrderStatus)
    (notes : Option String) (updatedBy : Option Nat) (now : Int) : Order × List Product :=
  let o' := o.updateStatus newStatus notes updatedBy now
  let ps' :=
    match newStatus with
    | OrderStatus.cancelled => releaseLoop o'.items ps
    | _ => ps
  (o', ps')

/-! Derived notions used in the statements. -/

/-- The cart totals invariant of the spec: cached totals match the lines. -/
def cartTotalsInv (c : Cart) : Prop :=
  c.totalAmount = cartItemsAmount c.items ∧
  c.totalItems = cartItemsQty c.items ∧
  ∀ it ∈ c.items, it.total = it.price * it.quantity

/-- The order totals invariant of the spec. -/
def orderTotalsInv (o : Order) : Prop :=
  o.subtotal = orderSubtotal o.items ∧
  o.totalAmount = o.subtotal + o.taxAmount + o.shippingCost - o.discountAmount

/-- Total quantity a product id occurs with across the order lines. -/
def lineQtySum (items : List OrderItem) (pid : Nat) : Int :=
  ((items.filter (fun it => it.product == pid)).map OrderItem.quantity).sum

/-! Concrete data for witnesses and counterexamples. -/

def sampleDate : OrderDate := ⟨2025, 10⟩

/-- Product A of the spec scenario: price 250, stock 1, active. -/
def productA : Product := ⟨1, 250, 1, true⟩

/-- Cart holding one unit of product A. -/
def cartC3 : Cart := ⟨[⟨1, 1, 250, 250⟩], 1, 250⟩

/-- A store whose cart is empty: order creation is rejected with no effects. -/
def storeEmptyCart : Store := ⟨[productA], some ⟨[], 0, 0⟩, []⟩

def customerRequest : String := "customer request"

/-- A processing order with one line: two units of product 1 at 100 each. -/
def orderC4 : Order :=
  { orderNumber := ⟨[]⟩
    user := 5
    items := [⟨1, 100, 2, 200⟩]
    status := OrderStatus.processing
    subtotal := 200
    taxAmount := 36
    shippingCost := 119
    discountAmount := 0
    totalAmount := 355
    paymentMethod := PaymentMethod.cod
    paymentStatus := PaymentStatus.pending
    tracking := emptyTracking
    statusHistory := []
    cancellation := none
    confirmedAt := none
    processedAt := none
    shippedAt := none
    deliveredAt := none
    cancelledAt := none }

/-- The matching product document, with stock 3 at cancellation time. -/
def productC4 : Product := ⟨1, 100, 3, true⟩

/-- A delivered order (delivered at time 1000). -/
def orderC10 : Order :=
  { orderC4 with status := OrderStatus.delivered, deliveredAt := some 1000 }

deriving instance DecidableEq for Except

/-! Theorems. -/

theorem saveCart_inv (c : Cart) : cartTotalsInv (saveCart c) := by
  unfold saveCart cartTotalsInv
  split
  · refine ⟨rfl, rfl, ?_⟩
    intro it hit
    rw [List.mem_map] at hit
    obtain ⟨it₀, -, rfl⟩ := hit
    rfl
  · next hc =>
    have h' : c.items = [] := by
      rw [← List.isEmpty_iff]
      revert hc
      cases c.items.isEmpty <;> simp
    refine ⟨?_, ?_, ?_⟩
    · rw [h']; rfl
    · rw [h']; rfl
    · rw [h']; intro it hit; cases hit

/-- C5: after any cart operation that completes (addItem, updateItemQuantity,
removeItem, clearCart), the cart's totalAmount equals the sum of the line
totals, each line total equals that line's price times its quantity, and
totalItems equals the sum of the quantities (zero for an empty cart). -/
theorem cart_totals_after_op (op : CartOp) (c c' : Cart)
    (h : applyCartOp op c = Except.ok c') : cartTotalsInv c' := by
  cases op with
  | add pid q price =>
    simp only [applyCartOp, Except.ok.injEq] at h
    subst h
    unfold Cart.addItem
    split <;> exact saveCart_inv _
  | update pid q =>
    simp only [applyCartOp] at h
    unfold Cart.updateItemQuantity at h
    split at h
    · split at h <;>
        · simp only [Except.ok.injEq] at h
          subst h
          exact saveCart_inv _
    · exact absurd h (by simp)
  | remove pid =>
    simp only [applyCartOp, Except.ok.injEq] at h
    subst h
    exact saveCart_inv _
  | clear =>
    simp only [applyCartOp, Except.ok.injEq] at h
    subst h
    exact saveCart_inv _

theorem cart_totals_after_op_witness : cartTotalsInv (Cart.clearCart cartC3) :=
  cart_totals_after_op CartOp.clear cartC3 (Cart.clearCart cartC3) (by decide)

theorem saveCart_products (c : Cart) :
    (saveCart c).items.map CartItem.product = c.items.map CartItem.product := by
  unfold saveCart
  split
  · rw [List.map_map]
    rfl
  · rfl

theorem bumpFirstQty_products (pid : Nat) (q : Int) (items : List CartItem) :
    (bumpFirstQty pid q items).map CartItem.product = items.map CartItem.product := by
  induction items with
  | nil => rfl
  | cons it rest ih =>
    unfold bumpFirstQty
    split
    · rfl
    · show it.product :: (bumpFirstQty pid q rest).map CartItem.product = _
      rw [ih]
      rfl

theorem setFirstQty_products (pid : Nat) (q : Int) (items : List CartItem) :
    (setFirstQty pid q items).map CartItem.product = items.map CartItem.product := by
  induction items with
  | nil => rfl
  | cons it rest ih =>
    unfold setFirstQty
    split
    · rfl
    · show it.product :: (setFirstQty pid q rest).map CartItem.product = _
      rw [ih]
      rfl

/-- Product-id distinctness is an invariant of every cart built through the
Cart aggregate's operations: addItem merges by product id, the other
operations only adjust or drop existing lines. This is why the distinctness
hypothesis of the C1 theorem holds of every reachable cart. -/
theorem cartOp_preserves_nodup (op : CartOp) (c c' : Cart)
    (hnd : (c.items.map CartItem.product).Nodup)
    (h : applyCartOp op c = Except.ok c') :
    (c'.items.map CartItem.product).Nodup := by
  cases op with
  | add pid q price =>
    simp only [applyCartOp, Except.ok.injEq] at h
    subst h
    unfold Cart.addItem
    split
    · next hany =>
      rw [saveCart_products, bumpFirstQty_products]
      exact hnd
    · next hany =>
      rw [saveCart_products]
      show ((c.items ++ [(⟨pid, q, price, price * q⟩ : CartItem)]).map CartItem.product).Nodup
      rw [List.map_append]
      refine List.Nodup.append hnd (List.nodup_singleton _) ?_
      intro x hx hy
      simp only [List.map_cons, List.map_nil, List.mem_singleton] at hy
      obtain ⟨it, hit, hpid⟩ := List.mem_map.mp hx
      have h2 : it.product = pid := hpid.trans hy
      have : c.items.any (fun it => it.product == pid) = true :=
        List.any_eq_true.mpr ⟨it, hit, by simp [h2]⟩
      exact absurd this (by simpa using hany)
  | update pid q =>
    simp only [applyCartOp] at h
    unfold Cart.updateItemQuantity at h
    split at h
    · split at h <;> simp only [Except.ok.injEq] at h <;> subst h <;> rw [saveCart_products]
      · exact List.Nodup.sublist (List.Sublist.map _ (List.filter_sublist _)) hnd
      · rw [setFirstQty_products]
        exact hnd
    · exact absurd h (by simp)
  | remove pid =>
    simp only [applyCartOp, Except.ok.injEq] at h
    subst h
    unfold Cart.removeItem
    rw [saveCart_products]
    exact List.Nodup.sublist (List.Sublist.map _ (List.filter_sublist _)) hnd
  | clear =>
    simp only [applyCartOp, Except.ok.injEq] at h
    subst h
    unfold Cart.clearCart
    rw [saveCart_products]
    exact List.nodup_nil

/-- C2: reserveStock fails with the insufficient-stock error exactly when the
current stock is below the requested quantity; otherwise it decrements the
stock by exactly that quantity and returns the product at the new stock level,
and the resulting stock is never negative on either outcome. -/
theorem reserveStock_spec (p : Product) (q : Int) (h : 0 ≤ p.stock) :
    (p.reserveStock q = Except.error StockError.insufficientStock ↔ p.stock < q) ∧
    (∀ p', p.reserveStock q = Except.ok p' → p'.stock = p.stock - q ∧ 0 ≤ p'.stock) ∧
    (p.reserveStock q = Except.error StockError.insufficientStock → 0 ≤ p.stock) := by
  unfold Product.reserveStock Product.isInStock
  split_ifs with hc
  · have hlt : p.stock < q := by
      have h1 : ¬ p.stock ≥ q := by simpa using hc
      omega
    exact ⟨⟨fun _ => hlt, fun _ => rfl⟩, fun p' hp' => absurd hp' (by simp), fun _ => h⟩
  · have hge : q ≤ p.stock := by
      have h1 : p.stock ≥ q := by simpa using hc
      omega
    refine ⟨⟨fun he => absurd he (by simp), fun hlt => absurd hge (by omega)⟩, ?_,
      fun he => absurd he (by simp)⟩
    intro p' hp'
    simp only [Except.ok.injEq] at hp'
    subst hp'
    refine ⟨rfl, ?_⟩
    show (0 : Int) ≤ p.stock - q
    omega

theorem reserveStock_spec_witness :
    (productA.reserveStock 1 = Except.error StockError.insufficientStock ↔ productA.stock < 1) ∧
    (∀ p', productA.reserveStock 1 = Except.ok p' →
      p'.stock = productA.stock - 1 ∧ 0 ≤ p'.stock) ∧
    (productA.reserveStock 1 = Except.error StockError.insufficientStock → 0 ≤ productA.stock) :=
  reserveStock_spec productA 1 (by decide)

theorem orderPreSaveTotals_inv (o : Order) : orderTotalsInv (orderPreSaveTotals o) := by
  unfold orderPreSaveTotals orderTotalsInv
  exact ⟨rfl, rfl⟩

theorem milestoneUpdate_totals (now : Int) (s : OrderStatus) (o : Order)
    (h : orderTotalsInv o) : orderTotalsInv (milestoneUpdate now s o) := by
  unfold milestoneUpdate
  cases s <;> exact h

theorem orderPreSaveStatusHistory_totals (now : Int) (sm isNew : Bool) (o : Order)
    (h : orderTotalsInv o) : orderTotalsInv (orderPreSaveStatusHistory now sm isNew o) := by
  unfold orderPreSaveStatusHistory
  split
  · exact milestoneUpdate_totals now _ _ h
  · exact h

theorem saveOrderExisting_inv (now : Int) (sm : Bool) (o : Order) :
    orderTotalsInv (saveOrderExisting now sm o) :=
  orderPreSaveStatusHistory_totals now sm false _ (orderPreSaveTotals_inv o)

/-- C6: after the creation save and after every save of a persisted order
(status updates included), totalAmount = subtotal + taxAmount + shippingCost −
discountAmount, with subtotal recomputed as the sum of the items' line
totals. -/
theorem order_totals_after_save (o : Order) (d : OrderDate) (ns : List String) (now : Int)
    (sm : Bool) (s : OrderStatus) (notes : Option String) (ub : Option Nat) :
    orderTotalsInv (saveOrderNew d ns o) ∧
    orderTotalsInv (saveOrderExisting now sm o) ∧
    orderTotalsInv (o.updateStatus s notes ub now) := by
  refine ⟨orderPreSaveTotals_inv _, saveOrderExisting_inv now sm o, ?_⟩
  unfold Order.updateStatus
  exact saveOrderExisting_inv _ _ _

theorem canBeCancelled_iff (o : Order) :
    o.canBeCancelled = true ↔
      (o.status = OrderStatus.pending ∨ o.status = OrderStatus.confirmed ∨
        o.status = OrderStatus.processing) := by
  unfold Order.canBeCancelled
  cases o.status <;> simp

/-- C8: for every order, canBeCancelled is true exactly when the status is
pending, confirmed or processing (so false on shipped and the terminal
statuses), and a cancel attempt on a delivered, cancelled or refunded order is
rejected with an error, leaving the order and the products unchanged. -/
theorem cancel_only_from_cancellable (o : Order) (ps : List Product)
    (reason : Option String) (uid : Option Nat) (now : Int) :
    (o.canBeCancelled = true ↔
      (o.status = OrderStatus.pending ∨ o.status = OrderStatus.confirmed ∨
        o.status = OrderStatus.processing)) ∧
    ((o.status = OrderStatus.delivered ∨ o.status = OrderStatus.cancelled ∨
        o.status = OrderStatus.refunded) →
      cancelOrderOp o ps reason uid now = (Except.error CancelError.cannotCancel, o, ps)) := by
  refine ⟨canBeCancelled_iff o, fun hterm => ?_⟩
  have hfalse : o.canBeCancelled = false := by
    unfold Order.canBeCancelled
    rcases hterm with h | h | h <;> rw [h] <;> rfl
  unfold cancelOrderOp
  rw [hfalse]
  rfl

theorem cancel_only_from_cancellable_witness :
    (orderC10.canBeCancelled = true ↔
      (orderC10.status = OrderStatus.pending ∨ orderC10.status = OrderStatus.confirmed ∨
        orderC10.status = OrderStatus.processing)) ∧
    cancelOrderOp orderC10 [productC4] none none 0 =
      (Except.error CancelError.cannotCancel, orderC10, [productC4]) :=
  ⟨(cancel_only_from_cancellable orderC10 [productC4] none none 0).1,
    (cancel_only_from_cancellable orderC10 [productC4] none none 0).2 (Or.inl (by decide))⟩

/-- C9: addTracking overwrites the tracking record with the supplied data
(keeping the delivery timestamp), stamps tracking.shippedAt with the current
time, and moves the status to shipped exactly when it was processing, leaving
it unchanged otherwise. -/
theorem addTracking_spec (o : Order) (td : TrackingData) (now : Int) :
    (o.addTracking td now).tracking.provider = td.provider ∧
    (o.addTracking td now).tracking.trackingNumber = td.trackingNumber ∧
    (o.addTracking td now).tracking.trackingUrl = td.trackingUrl ∧
    (o.addTracking td now).tracking.shippedAt = some now ∧
    (o.addTracking td now).tracking.deliveredAt = o.tracking.deliveredAt ∧
    (o.addTracking td now).status =
      (if o.status = OrderStatus.processing then OrderStatus.shipped else o.status) := by
  unfold Order.addTracking saveOrderExisting orderPreSaveStatusHistory orderPreSaveTotals
  by_cases h : o.status = OrderStatus.processing <;>
    simp [h, milestoneUpdate]

/-- C10: canBeReturned is false for any non-delivered order without reading
the delivery timestamp; for a delivered order it requires deliveredAt to be
set (crashing otherwise, modelled as none), in which case it returns true
exactly when the current time is strictly within 30 days of delivery. -/
theorem canBeReturned_spec (o : Order) (now t : Int) :
    (o.status ≠ OrderStatus.delivered → o.canBeReturned now = some false) ∧
    (o.status = OrderStatus.delivered → o.deliveredAt = none → o.canBeReturned now = none) ∧
    (o.status = OrderStatus.delivered → o.deliveredAt = some t →
      (o.canBeReturned now = some true ↔ now < t + returnWindowMs)) := by
  unfold Order.canBeReturned
  refine ⟨fun h => by simp [h], fun h hd => by simp [h, hd], fun h hd => ?_⟩
  simp only [h, ne_eq, not_true_eq_false, if_false, hd]
  simp only [Option.some.injEq, decide_eq_true_eq]
  omega

theorem canBeReturned_spec_witness :
    orderC10.canBeReturned 2000 = some true ↔ 2000 < 1000 + returnWindowMs :=
  (canBeReturned_spec orderC10 2000 1000).2.2 (by decide) (by decide)

theorem findProduct_pid (ps : List Product) (x : Nat) (p : Product)
    (h : findProduct ps x = some p) : p.pid = x := by
  unfold findProduct at h
  have := List.find?_some h
  simpa using this

theorem findProduct_update_ne (ps : List Product) (p' : Product) (x : Nat)
    (hx : x ≠ p'.pid) : findProduct (updateProduct ps p') x = findProduct ps x := by
  induction ps with
  | nil => rfl
  | cons a ps ih =>
    show findProduct ((if a.pid == p'.pid then p' else a) :: updateProduct ps p') x = _
    by_cases ha : a.pid = p'.pid
    · have hb : (a.pid == p'.pid) = true := by simpa using ha
      rw [if_pos hb]
      unfold findProduct
      rw [List.find?_cons_of_neg _ (by simpa using fun h => hx h.symm),
        List.find?_cons_of_neg _ (by simp [ha]; exact fun h => hx h.symm)]
      exact ih
    · have hb : (a.pid == p'.pid) = false := by simpa using ha
      rw [if_neg (by simp [hb])]
      unfold findProduct
      by_cases hax : a.pid = x
      · rw [List.find?_cons_of_pos _ (by simpa using hax),
          List.find?_cons_of_pos _ (by simpa using hax)]
      · rw [List.find?_cons_of_neg _ (by simpa using hax),
          List.find?_cons_of_neg _ (by simpa using hax)]
        exact ih

theorem findProduct_update_self (ps : List Product) (p' q : Product)
    (hfind : findProduct ps p'.pid = some q) :
    findProduct (updateProduct ps p') p'.pid = some p' := by
  induction ps with
  | nil => simp [findProduct] at hfind
  | cons a ps ih =>
    show findProduct ((if a.pid == p'.pid then p' else a) :: updateProduct ps p') p'.pid = _
    by_cases ha : a.pid = p'.pid
    · have hb : (a.pid == p'.pid) = true := by simpa using ha
      rw [if_pos hb]
      unfold findProduct
      rw [List.find?_cons_of_pos _ (by simp)]
    · have hb : (a.pid == p'.pid) = false := by simpa using ha
      rw [if_neg (by simp [hb])]
      unfold findProduct at hfind ⊢
      rw [List.find?_cons_of_neg _ (by simpa using ha)] at hfind
      rw [List.find?_cons_of_neg _ (by simpa using ha)]
      exact ih hfind

theorem lineQtySum_cons (it : OrderItem) (rest : List OrderItem) (pid : Nat) :
    lineQtySum (it :: rest) pid =
      (if it.product == pid then it.quantity else 0) + lineQtySum rest pid := by
  unfold lineQtySum
  by_cases h : (it.product == pid) = true
  · simp [List.filter_cons, h]
  · simp [List.filter_cons, h]

theorem releaseLoop_stockOf (items : List OrderItem) (ps : List Product) (pid : Nat)
    (p : Product) (hfind : findProduct ps pid = some p) :
    findProduct (releaseLoop items ps) pid =
      some { p with stock := p.stock + lineQtySum items pid } := by
  induction items generalizing ps p with
  | nil =>
    have hz : p.stock + lineQtySum [] pid = p.stock := by simp [lineQtySum]
    show findProduct ps pid = _
    rw [hz]
    exact hfind
  | cons it rest ih =>
    rw [releaseLoop]
    by_cases hp : it.product = pid
    · subst hp
      rw [hfind]
      have hpid : p.pid = it.product := findProduct_pid ps it.product p hfind
      have hfind' :
          findProduct (updateProduct ps (p.releaseStock it.quantity)) it.product =
            some (p.releaseStock it.quantity) := by
        have : (p.releaseStock it.quantity).pid = it.product := hpid
        rw [← this]
        exact findProduct_update_self ps (p.releaseStock it.quantity) p (by rw [this]; exact hfind)
      have := ih _ _ hfind'
      rw [this, lineQtySum_cons]
      simp only [beq_self_eq_true, if_true]
      show some _ = some _
      congr 1
      show Product.mk p.pid p.price (p.stock + it.quantity + lineQtySum rest it.product)
            p.isActive =
          Product.mk p.pid p.price (p.stock + (it.quantity + lineQtySum rest it.product))
            p.isActive
      rw [add_assoc]
    · have hskip : lineQtySum (it :: rest) pid = lineQtySum rest pid := by
        rw [lineQtySum_cons]
        simp [show (it.product == pid) = false by simpa using hp]
      cases hfp : findProduct ps it.product with
      | none =>
        rw [hskip]
        exact ih ps p hfind
      | some q =>
        have hqpid : q.pid = it.product := findProduct_pid ps it.product q hfp
        have hfind' : findProduct (updateProduct ps (q.releaseStock it.quantity)) pid =
            some p := by
          rw [findProduct_update_ne]
          · exact hfind
          · show pid ≠ (q.releaseStock it.quantity).pid
            rw [show (q.releaseStock it.quantity).pid = q.pid from rfl, hqpid]
            exact fun h => hp h.symm
        rw [hskip]
        exact ih _ _ hfind'

theorem updateStatus_items (o : Order) (s : OrderStatus) (notes : Option String)
    (ub : Option Nat) (now : Int) : (o.updateStatus s notes ub now).items = o.items := by
  unfold Order.updateStatus saveOrderExisting orderPreSaveStatusHistory orderPreSaveTotals
  cases s <;> simp [milestoneUpdate] <;> split <;> rfl

/-- C4 counterexample: cancelling a processing order through the cancel-order
operation sets the status and the cancellation record but does NOT increment
the ordered product's stock (stock stays 3 instead of becoming 3 + 2). -/
theorem cancelOrder_no_restock_counterexample :
    ¬ ((cancelOrderOp orderC4 [productC4] (some customerRequest) (some 7) 1000).2.1.status =
          OrderStatus.cancelled ∧
        (cancelOrderOp orderC4 [productC4] (some customerRequest) (some 7) 1000).2.1.cancellation =
          some ⟨some customerRequest, 1000, some 7, RefundStatus.noRefund⟩ ∧
        stockOf (cancelOrderOp orderC4 [productC4] (some customerRequest) (some 7) 1000).2.2 1 =
          some (productC4.stock + lineQtySum orderC4.items 1)) := by
  decide

/-- C4 (amended): cancelling a processing order with a reason succeeds, sets
the status to cancelled and attaches a cancellation record carrying that
reason, but leaves every product's stock unchanged; the reserved stock is
released (each product's stock grows by the total quantity its id carries
across the order lines) only by the status-update operation invoked with
status cancelled. -/
theorem cancelOrder_processing_spec (o : Order) (ps : List Product) (reason : Option String)
    (uid : Option Nat) (notes : Option String) (now : Int)
    (h : o.status = OrderStatus.processing) :
    (cancelOrderOp o ps reason uid now).1 = Except.ok () ∧
    (cancelOrderOp o ps reason uid now).2.1.status = OrderStatus.cancelled ∧
    (cancelOrderOp o ps reason uid now).2.1.cancellation =
      some ⟨reason, now, uid,
        if o.paymentStatus = PaymentStatus.paid then RefundStatus.pending
        else RefundStatus.noRefund⟩ ∧
    (cancelOrderOp o ps reason uid now).2.2 = ps ∧
    (∀ pid p, findProduct ps pid = some p →
      stockOf (updateOrderStatusOp o ps OrderStatus.cancelled notes uid now).2 pid =
        some (p.stock + lineQtySum o.items pid)) := by
  have hcan : o.canBeCancelled = true := (canBeCancelled_iff o).mpr (Or.inr (Or.inr h))
  have hop : cancelOrderOp o ps reason uid now =
      (Except.ok (), o.cancelOrder reason uid now, ps) := by
    unfold cancelOrderOp
    rw [hcan]
    rfl
  rw [hop]
  refine ⟨rfl, ?_, ?_, rfl, ?_⟩
  · unfold Order.cancelOrder saveOrderExisting orderPreSaveStatusHistory orderPreSaveTotals
    rw [h]
    simp [milestoneUpdate]
  · unfold Order.cancelOrder saveOrderExisting orderPreSaveStatusHistory orderPreSaveTotals
    rw [h]
    simp [milestoneUpdate]
  · intro pid p hfind
    unfold updateOrderStatusOp
    show stockOf (releaseLoop (o.updateStatus OrderStatus.cancelled notes uid now).items ps) pid = _
    rw [updateStatus_items]
    unfold stockOf
    rw [releaseLoop_stockOf o.items ps pid p hfind]
    rfl

theorem cancelOrder_processing_spec_witness :
    (cancelOrderOp orderC4 [productC4] (some customerRequest) (some 7) 1000).1 =
        Except.ok () ∧
    stockOf (updateOrderStatusOp orderC4 [productC4] OrderStatus.cancelled none (some 7) 1000).2 1 =
        some (productC4.stock + lineQtySum orderC4.items 1) :=
  ⟨(cancelOrder_processing_spec orderC4 [productC4] (some customerRequest) (some 7) none 1000
      (by decide)).1,
    (cancelOrder_processing_spec orderC4 [productC4] (some customerRequest) (some 7) none 1000
      (by decide)).2.2.2.2 1 productC4 (by decide)⟩

theorem validateItems_nil (ps : List Product) (items : List CartItem)
    (h : validateItems ps items = []) :
    ∀ it ∈ items, ∃ p, findProduct ps it.product = some p ∧ p.isActive = true ∧
      it.quantity ≤ p.stock := by
  induction items with
  | nil => intro it hit; cases hit
  | cons it rest ih =>
    rw [validateItems] at h
    cases hfp : findProduct ps it.product with
    | none => simp only [hfp] at h; cases h
    | some p =>
      simp only [hfp] at h
      by_cases hact : p.isActive
      · rw [if_neg (by simp [hact])] at h
        by_cases hstk : p.stock < it.quantity
        · rw [if_pos hstk] at h; cases h
        · rw [if_neg hstk] at h
          have hrest : validateItems ps rest = [] := by
            by_cases hpr : (p.price != it.price) = true
            · rw [if_pos hpr] at h; cases h
            · rw [if_neg hpr] at h; exact h
          intro it' hit'
          rcases List.mem_cons.mp hit' with rfl | hmem
          · exact ⟨p, hfp, by simpa using hact, by omega⟩
          · exact ih hrest it' hmem
      · rw [if_pos (by simp [hact])] at h; cases h

theorem buildOrderItems_pairs (ps : List Product) (items : List CartItem)
    (ois : List OrderItem) (h : buildOrderItems ps items = Except.ok ois) :
    ois.map (fun oi => (oi.product, oi.quantity)) =
      items.map (fun it => (it.product, it.quantity)) := by
  induction items generalizing ois with
  | nil =>
    rw [buildOrderItems] at h
    simp only [Except.ok.injEq] at h
    subst h
    rfl
  | cons it rest ih =>
    rw [buildOrderItems] at h
    cases hfp : findProduct ps it.product with
    | none => simp only [hfp] at h; cases h
    | some p =>
      simp only [hfp] at h
      by_cases hact : p.isActive
      · rw [if_neg (by simp [hact])] at h
        by_cases hstk : p.stock < it.quantity
        · rw [if_pos hstk] at h; cases h
        · rw [if_neg hstk] at h
          cases hb : buildOrderItems ps rest with
          | error e => rw [hb] at h; cases h
          | ok tail =>
            rw [hb] at h
            simp only [Except.map, Except.ok.injEq] at h
            subst h
            simp only [List.map_cons, List.cons.injEq]
            refine ⟨?_, ih tail hb⟩
            rw [findProduct_pid ps it.product p hfp]
      · rw [if_pos (by simp [hact])] at h; cases h

theorem reserveLoop_ok (ois : List OrderItem) (ps : List Product)
    (hnd : (ois.map OrderItem.product).Nodup)
    (hok : ∀ oi ∈ ois, ∃ p, findProduct ps oi.product = some p ∧ oi.quantity ≤ p.stock) :
    (reserveLoop ois ps).2 = none := by
  induction ois generalizing ps with
  | nil => rfl
  | cons oi rest ih =>
    obtain ⟨p, hfp, hle⟩ := hok oi (List.mem_cons_self oi rest)
    rw [reserveLoop]
    simp only [hfp]
    have hres : p.reserveStock oi.quantity =
        Except.ok { p with stock := p.stock - oi.quantity } := by
      unfold Product.reserveStock Product.isInStock
      rw [decide_eq_true (show p.stock ≥ oi.quantity from hle)]
      rfl
    simp only [hres]
    have hnd2 : (∀ x ∈ rest, ¬ x.product = oi.product) ∧
        (List.map OrderItem.product rest).Nodup := by simpa using hnd
    apply ih
    · exact hnd2.2
    · intro oi' hoi'
      obtain ⟨q, hq, hqle⟩ := hok oi' (List.mem_cons_of_mem oi hoi')
      have hne : oi'.product ≠ oi.product := hnd2.1 oi' hoi'
      refine ⟨q, ?_, hqle⟩
      rw [findProduct_update_ne]
      · exact hq
      · show oi'.product ≠ (Product.mk p.pid p.price (p.stock - oi.quantity) p.isActive).pid
        show oi'.product ≠ p.pid
        rw [findProduct_pid ps oi.product p hfp]
        exact hne

/-- C1: any rejected order creation (an error result) leaves the cart and
every product's stock exactly as before; the cart-distinctness hypothesis is
an invariant of every cart the Cart aggregate can build, since addItem merges
lines by product id. -/
theorem createOrder_rejected_no_effects (d : OrderDate) (uid : Nat) (pm : PaymentMethod)
    (st : Store)
    (hnd : ∀ c, st.cart = some c → (c.items.map CartItem.product).Nodup)
    (e : CreateOrderError) (herr : (createOrder d uid pm st).1 = Except.error e) :
    (createOrder d uid pm st).2.products = st.products ∧
    (createOrder d uid pm st).2.cart = st.cart := by
  have key : (createOrder d uid pm st).2 = st ∨
      ∃ o, (createOrder d uid pm st).1 = Except.ok o := by
    unfold createOrder
    split
    · left; rfl
    · next cart hc =>
      split
      · left; rfl
      · next hemp =>
        by_cases hval : (validateItems st.products cart.items).isEmpty
        · simp only [hval, Bool.not_true, Bool.false_eq_true, if_false]
          split
          · left; rfl
          · next ois hb =>
            have hval' : validateItems st.products cart.items = [] :=
              List.isEmpty_iff.mp hval
            have hcond := validateItems_nil st.products cart.items hval'
            have hpairs := buildOrderItems_pairs st.products cart.items ois hb
            have hmapeq : ois.map OrderItem.product = cart.items.map CartItem.product := by
              have h2 := congrArg (List.map Prod.fst) hpairs
              simpa [List.map_map, Function.comp] using h2
            have hnd' : (ois.map OrderItem.product).Nodup := by
              rw [hmapeq]; exact hnd cart hc
            have hok : ∀ oi ∈ ois, ∃ p, findProduct st.products oi.product = some p ∧
                oi.quantity ≤ p.stock := by
              intro oi hoi
              have hmem : (oi.product, oi.quantity) ∈
                  cart.items.map (fun it => (it.product, it.quantity)) := by
                rw [← hpairs]
                exact List.mem_map_of_mem _ hoi
              obtain ⟨it, hit, hpair⟩ := List.mem_map.mp hmem
              have h1 : it.product = oi.product := congrArg Prod.fst hpair
              have h2 : it.quantity = oi.quantity := congrArg Prod.snd hpair
              obtain ⟨p, hfp, -, hle⟩ := hcond it hit
              exact ⟨p, h1 ▸ hfp, h2 ▸ hle⟩
            have hnone := reserveLoop_ok ois st.products hnd' hok
            have hpair : reserveLoop ois st.products =
                ((reserveLoop ois st.products).1, (none : Option StockError)) := by
              rw [← hnone]
            rw [hpair]
            right
            exact ⟨_, rfl⟩
        · have hfalse : (validateItems st.products cart.items).isEmpty = false := by
            revert hval
            cases (validateItems st.products cart.items).isEmpty <;> simp
          simp only [hfalse, Bool.not_false, if_true]
          exact Or.inl trivial
  rcases key with h2 | ⟨o, ho⟩
  · exact ⟨by rw [h2], by rw [h2]⟩
  · rw [ho] at herr
    cases herr

theorem createOrder_rejected_no_effects_witness :
    (createOrder sampleDate 5 PaymentMethod.cod storeEmptyCart).2.products =
        storeEmptyCart.products ∧
    (createOrder sampleDate 5 PaymentMethod.cod storeEmptyCart).2.cart =
        storeEmptyCart.cart :=
  createOrder_rejected_no_effects sampleDate 5 PaymentMethod.cod storeEmptyCart
    (fun c hc => by
      have hc' : some (⟨[], 0, 0⟩ : Cart) = some c := hc
      have h2 : (⟨[], 0, 0⟩ : Cart) = c := by injection hc'
      rw [← h2]
      exact List.nodup_nil)
    CreateOrderError.cartEmpty (by decide)

